import Mathlib

/-!
Verification of the CBL-Mariner image-customizer engine.

The Go sources are shallowly embedded: pure string manipulation becomes
functions on `List Char` / `String`; filesystem and mount side effects
become explicit traces of actions (`FsAction`, `ChrootAction`, `PkgAction`,
`OrchStep`); fallible steps return `Except`/`Option` results.  External
system calls (mount, unmount, mkdir, remove) are parameterised by success
oracles where a claim depends on failure behaviour, and are otherwise
modelled as succeeding.
-/

namespace ImageCustomizer

/-- Filesystem-level actions performed by the scoped-mount package
(`toolkit/tools/internal/safemount.go`) and by `rpmSourcesMounts.close`. -/
inductive FsAction where
  | mkdirAll (target : String)
  | mountFs (source target : String)
  | unmountFs (target : String)
  | removeDir (target : String)
  | removeFileAll (path : String)
  deriving DecidableEq, Repr

/-- The scoped mount handle of `safemount.go` (second revision): it records
the mount target, whether the mount is currently active, and whether the
handle created the target directory. -/
structure Mount where
  target : String
  isMounted : Bool
  dirCreated : Bool
  deriving DecidableEq, Repr

/-- Model of `Mount.Close` from `safemount.go`: if mounted, unmount (returning early
on failure); then, if the directory was created by the handle, remove it
with a non-recursive remove (returning early on failure).  `unmountOk` and
`removeOk` are the success oracles of the two system calls.  Returns the
updated handle, the trace of attempted actions, and an error. -/
def Mount.close (m : Mount) (unmountOk removeOk : Bool) :
    Mount × List FsAction × Option String :=
  if m.isMounted then
    if unmountOk then
      let m1 : Mount := { m with isMounted := false }
      if m1.dirCreated then
        if removeOk then
          ({ m1 with dirCreated := false },
            [FsAction.unmountFs m.target, FsAction.removeDir m.target], none)
        else
          (m1, [FsAction.unmountFs m.target, FsAction.removeDir m.target],
            some ("failed to delete source rpms mount directory (" ++ m.target ++ ")"))
      else
        (m1, [FsAction.unmountFs m.target], none)
    else
      (m, [FsAction.unmountFs m.target], some ("failed to unmount (" ++ m.target ++ ")"))
  else
    if m.dirCreated then
      if removeOk then
        ({ m with dirCreated := false }, [FsAction.removeDir m.target], none)
      else
        (m, [FsAction.removeDir m.target],
          some ("failed to delete source rpms mount directory (" ++ m.target ++ ")"))
    else
      (m, [], none)

/-- Model of `NewMount` from `safemount.go`: optionally create the target directory,
then perform the mount; on any failure of the helper, call `Close` on the
partially-constructed handle and return the error.  `mkdirOk`, `mountOk`
and `removeOk` are the success oracles of the system calls involved. -/
def newMount (source target : String) (makeAndDeleteDir mkdirOk mountOk removeOk : Bool) :
    Option Mount × List FsAction × Option String :=
  let m0 : Mount := { target := target, isMounted := false, dirCreated := false }
  if makeAndDeleteDir then
    if mkdirOk then
      let m1 : Mount := { m0 with dirCreated := true }
      if mountOk then
        (some { m1 with isMounted := true },
          [FsAction.mkdirAll target, FsAction.mountFs source target], none)
      else
        let c := m1.close true removeOk
        (none, FsAction.mkdirAll target :: FsAction.mountFs source target :: c.2.1,
          some ("failed to mount (" ++ source ++ ") to (" ++ target ++ ")"))
    else
      (none, [FsAction.mkdirAll target],
        some ("failed to create mount directory (" ++ target ++ ")"))
  else
    if mountOk then
      (some { m0 with isMounted := true }, [FsAction.mountFs source target], none)
    else
      let c := m0.close true removeOk
      (none, FsAction.mountFs source target :: c.2.1,
        some ("failed to mount (" ++ source ++ ") to (" ++ target ++ ")"))

/-- The `rpmSourcesMounts` aggregate of
`toolkit/tools/imagecustomizerlib/rpmsourcesmounts.go`: the created parent
directory inside the chroot, whether it was created, the acquired mount
handles in acquisition order, and the path of the emitted `allrepos.repo`
file. -/
structure RpmSourcesMounts where
  rpmsMountParentDir : String
  rpmsMountParentDirCreated : Bool
  mounts : List Mount
  allReposConfigFilePath : String
  deriving DecidableEq, Repr

/-- Model of `rpmSourcesMounts.close` from `rpmsourcesmounts.go`, with all system
calls modelled as succeeding (the claims below concern a successful close):
first `os.RemoveAll` the `allrepos.repo` file, then close each mount handle
iterating over `m.mounts` in slice order, then (when it was created) remove
the parent directory with a non-recursive `os.Remove`. -/
def rpmSourcesClose (m : RpmSourcesMounts) : RpmSourcesMounts × List FsAction :=
  let closed := m.mounts.map (fun mt => mt.close true true)
  let mountTrace := (closed.map (fun c => c.2.1)).flatten
  let base := FsAction.removeFileAll m.allReposConfigFilePath :: mountTrace
  if m.rpmsMountParentDirCreated then
    ({ m with mounts := closed.map (fun c => c.1), rpmsMountParentDirCreated := false },
      base ++ [FsAction.removeDir m.rpmsMountParentDir])
  else
    ({ m with mounts := closed.map (fun c => c.1) }, base)

/-- The targets of the unmount actions in a trace, in trace order. -/
def unmountTargets (tr : List FsAction) : List String :=
  tr.filterMap (fun a =>
    match a with
    | FsAction.unmountFs t => some t
    | _ => none)

/-- Apply a trace of filesystem actions to a set of existing directories:
`mkdirAll` adds the directory, `removeDir` deletes it, other actions do not
change the directory set. -/
def applyFs (dirs : List String) : List FsAction → List String
  | [] => dirs
  | a :: rest =>
    match a with
    | FsAction.removeDir t => applyFs (dirs.filter (fun d => !(d == t))) rest
    | FsAction.mkdirAll t => applyFs (t :: dirs) rest
    | _ => applyFs dirs rest

/-! ### Bootloader rewriter (`handleKernelCommandLine` in
`toolkit/tools/imagecustomizerlib/customizeutils.go`)

The Go code locates the kernel line with the RE2 regular expression
`\tlinux .* (\$kernelopts)` via `FindStringSubmatchIndex` and splices
`extraCommandLine + " "` in at the start index of the capture group.
The regular-expression engine is embedded for this fixed pattern:
`scanKernel` finds the leftmost position at which the pattern matches,
with the greedy `.*` (any characters except newline) taking the longest
possible extent, and returns the start index of the captured
`$kernelopts` group. -/

/-- The characters of the captured group literal `$kernelopts`. -/
def kernelOptsTok : List Char := "$kernelopts".data

/-- The literal leading part `\tlinux ` of the kernel-line pattern. -/
def linuxPat : List Char := "\tlinux ".data

/-- Whether the tail `l` can complete a match at extent `k`: the `k`
characters consumed by `.*` contain no newline, and they are followed by a
space and the `$kernelopts` literal. -/
def kernelLineCand (l : List Char) (k : Nat) : Bool :=
  ((l.take k).all (fun c => !(c == '\n'))) && (' ' :: kernelOptsTok).isPrefixOf (l.drop k)

/-- The greedy extent of `.*`: the largest `k` for which the rest of the
pattern still matches. -/
def greedyK (l : List Char) : Option Nat :=
  (List.range (l.length + 1)).reverse.find? (kernelLineCand l)

/-- Try to match the pattern at the head of `rem`.  On success, return the
offset (relative to `rem`) of the start of the captured `$kernelopts`
group: the 7 literal characters, the `k` characters of `.*`, and the
space. -/
def matchAt (rem : List Char) : Option Nat :=
  if linuxPat.isPrefixOf rem then
    (greedyK (rem.drop 7)).map (fun k => 7 + (k + 1))
  else none

/-- Scan for the leftmost match of the kernel-line pattern, returning the
index of the start of the captured `$kernelopts` group. -/
def scanKernel : List Char → Option Nat
  | [] => none
  | c :: tl =>
    match matchAt (c :: tl) with
    | some j => some j
    | none => (scanKernel tl).map (fun i => i + 1)

/-- Model of `linuxCommandLineRegex.FindStringSubmatchIndex`, returning the start
index of the first capture group (`match[2]` in the Go code). -/
def matchLinuxLine (grubCfg : List Char) : Option Nat :=
  scanKernel grubCfg

/-- Declarative statement that the kernel-line pattern matches `l` starting
at position `s` with `.*` extent `k`. -/
def KernelMatchAt (l : List Char) (s k : Nat) : Prop :=
  linuxPat <+: l.drop s ∧
  (∀ c ∈ (l.drop (s + 7)).take k, c ≠ '\n') ∧
  (' ' :: kernelOptsTok) <+: (l.drop (s + 7)).drop k

/-- Model of `handleKernelCommandLine` from `customizeutils.go`, operating on the
grub.cfg content: find the insertion index with the kernel-line regular
expression and splice in `extraCommandLine + " "`; fail when the pattern
does not match. -/
def handleKernelCommandLine (extraCommandLine : String) (grubCfg : List Char) :
    Except String (List Char) :=
  match matchLinuxLine grubCfg with
  | none => Except.error "failed to find Linux kernel command line params in grub2 config file"
  | some insertIndex =>
    Except.ok (grubCfg.take insertIndex ++ extraCommandLine.data ++ ' ' :: grubCfg.drop insertIndex)

/-- The same function viewed as a transformer of the grub.cfg file state:
the second component is the resulting file content, which is unchanged when
the pattern does not match (the failure occurs before the write). -/
def handleKernelCommandLineFile (extraCommandLine : String) (grubCfg : List Char) :
    Except String Unit × List Char :=
  match matchLinuxLine grubCfg with
  | none =>
    (Except.error "failed to find Linux kernel command line params in grub2 config file", grubCfg)
  | some insertIndex =>
    (Except.ok (), grubCfg.take insertIndex ++ extraCommandLine.data ++ ' ' :: grubCfg.drop insertIndex)

/-! ### Partition discovery (`findPartitions` in
`toolkit/tools/imagecustomizerlib/imagecustomizer.go`) -/

/-- The partition information returned by the external disk utility. -/
structure PartitionInfo where
  path : String
  partitionTypeUuid : String
  uuid : String
  fileSystemType : String
  deriving DecidableEq, Repr

/-- The EFI-system-partition type UUID the engine searches for. -/
def efiSystemPartitionTypeUuid : String := "c12a7328-f81f-11d2-ba4b-00a0c93ec93b"

/-- The GPT type UUID of a legacy BIOS-boot partition (used only to state
the claim about a fallback; the code never mentions it). -/
def biosGrubTypeUuid : String := "21686148-6449-6e6f-744e-656564454649"

/-- A mount-point triple handed to the chroot. -/
structure MountPointSpec where
  source : String
  target : String
  fsType : String
  deriving DecidableEq, Repr

/-- Split a character list into lines at newline characters. -/
def splitOnNl : List Char → List (List Char)
  | [] => [[]]
  | c :: tl =>
    let r := splitOnNl tl
    if c == '\n' then [] :: r
    else
      match r with
      | [] => [[c]]
      | h :: t => (c :: h) :: t

/-- The literal leading part of the rootfs search line pattern
`(?m)^search -n -u ([a-zA-Z0-9\-]+) -s$`. -/
def searchPre : List Char := "search -n -u ".data

/-- The literal trailing part of the rootfs search line pattern. -/
def searchSuf : List Char := " -s".data

/-- The character class `[a-zA-Z0-9\-]` of the rootfs identifier. -/
def uuidChar (c : Char) : Bool :=
  c.isLower || c.isUpper || c.isDigit || c == '-'

/-- Match one line against `^search -n -u ([a-zA-Z0-9\-]+) -s$`, returning
the captured identifier. -/
def parseSearchLine (line : List Char) : Option (List Char) :=
  if searchPre.isPrefixOf line then
    let rest := line.drop searchPre.length
    if searchSuf.isSuffixOf rest then
      let mid := rest.take (rest.length - searchSuf.length)
      if !mid.isEmpty && mid.all uuidChar then some mid else none
    else none
  else none

/-- Model of `rootfsPartitionRegex.FindStringSubmatch`: the identifier captured on
the first line of the grub.cfg content matching the rootfs search
pattern. -/
def findRootfsUuid (grubCfg : String) : Option (List Char) :=
  (splitOnNl grubCfg.data).findSome? parseSearchLine

/-- Model of `findPartitions` from `imagecustomizer.go`: locate the EFI system
partition by its type UUID (failing when there is none), read the rootfs
identifier out of the ESP's grub.cfg, resolve it against the partition
list, and emit the two mount points (root first, then `/boot/efi`).
`grubCfg` is the content of `boot/grub2/grub.cfg` on the ESP.  In the Go
code an unresolvable rootfs identifier dereferences a nil pointer; that
case is modelled as a distinguished error. -/
def findPartitions (diskPartitions : List PartitionInfo) (grubCfg : String) :
    Except String (List MountPointSpec) :=
  match diskPartitions.find? (fun p => p.partitionTypeUuid == efiSystemPartitionTypeUuid) with
  | none => Except.error "failed to find EFI system partition"
  | some esp =>
    match findRootfsUuid grubCfg with
    | none => Except.error "failed to find rootfs partition in grub.cfg file"
    | some rootfsUuid =>
      match diskPartitions.find? (fun p => p.uuid == String.mk rootfsUuid) with
      | none => Except.error "panic: nil rootfs partition"
      | some rootfs =>
        Except.ok
          [{ source := rootfs.path, target := "/", fsType := rootfs.fileSystemType },
           { source := esp.path, target := "/boot/efi", fsType := esp.fileSystemType }]

/-! ### OverlayFS planner (`handleOverlays`) -/

/-- An overlay declaration from the configuration document. -/
structure Overlay where
  lower : String
  upper : String
  work : String
  target : String
  options : String
  deriving DecidableEq, Repr

/-- One `/etc/fstab` entry. -/
structure FstabEntry where
  source : String
  target : String
  fsType : String
  options : String
  freq : Nat
  passNo : Nat
  deriving DecidableEq, Repr

/-- Chroot-level side effects of the overlay planner. -/
inductive ChrootAction where
  | addDracutModule (moduleName : String)
  | mkdirChroot (path : String) (mode : Nat)
  deriving DecidableEq, Repr

/-- The fstab entry `handleOverlays` builds for one overlay. -/
def overlayFstabEntry (o : Overlay) : FstabEntry :=
  { source := "overlay"
    target := o.target
    fsType := "overlay"
    options :=
      (if o.options != "" then o.options ++ "," else "") ++
        ("lowerdir=" ++ o.lower ++ ",upperdir=" ++ o.upper ++ ",workdir=" ++ o.work)
    freq := 0
    passNo := 2 }

/-- The loop body of `handleOverlays`: append the entry for each overlay in
order and create its upper and work directories with mode `0o755` inside
the chroot. -/
def handleOverlaysLoop (overlays : List Overlay) (fstabEntries : List FstabEntry) :
    List FstabEntry × List ChrootAction :=
  match overlays with
  | [] => (fstabEntries, [])
  | o :: rest =>
    let acc := handleOverlaysLoop rest (fstabEntries ++ [overlayFstabEntry o])
    (acc.1,
      ChrootAction.mkdirChroot o.upper 0o755 :: ChrootAction.mkdirChroot o.work 0o755 :: acc.2)

/-- Model of `handleOverlays` from the overlay planner: with no overlays it returns
`false` and changes nothing; otherwise it registers the `overlay` dracut
module, appends one fstab entry per overlay (keeping all existing
entries), creates the upper and work directories, and returns `true`. -/
def handleOverlays (overlays : List Overlay) (fstabEntries : List FstabEntry) :
    Bool × List FstabEntry × List ChrootAction :=
  if overlays.length ≤ 0 then (false, fstabEntries, [])
  else
    let r := handleOverlaysLoop overlays fstabEntries
    (true, r.1, ChrootAction.addDracutModule "overlay" :: r.2)

/-! ### Partition name validation (`nameCheck` in
`toolkit/tools/imagegen/configuration/partition.go`) -/

/-- The number of UTF-16 code units of one character (`utf16.Encode`). -/
def utf16UnitLen (c : Char) : Nat :=
  if c.toNat < 0x10000 then 1 else 2

/-- The length of the UTF-16 encoding of a string's runes. -/
def utf16Len (name : List Char) : Nat :=
  (name.map utf16UnitLen).sum

/-- The constant `unicode.MaxASCII`. -/
def maxAsciiVal : Nat := 0x7F

/-- The `for pos, char := range name` loop of `nameCheck`, returning the
first character above `unicode.MaxASCII` together with its UTF-8 byte
offset. -/
def findNonAscii : List Char → Nat → Option (Char × Nat)
  | [], _ => none
  | c :: tl, pos =>
    if maxAsciiVal < c.toNat then some (c, pos)
    else findNonAscii tl (pos + c.utf8Size)

/-- A boolean substring test: whether `pat` occurs contiguously in `l`. -/
def seqIn (pat : List Char) : List Char → Bool
  | [] => pat.isPrefixOf ([] : List Char)
  | c :: tl => pat.isPrefixOf (c :: tl) || seqIn pat tl

/-- Model of `nameCheck` from `partition.go`: reject names containing a non-ASCII
character, then reject names whose UTF-16 encoding plus the null
terminator exceeds `maxLength = 36` code units; accept otherwise.  Returns
the error message, `none` on acceptance. -/
def nameCheck (name : List Char) : Option String :=
  let stringLengthWithNull := utf16Len name + 1
  match findNonAscii name 0 with
  | some (c, pos) =>
    some ("[Name] (" ++ String.mk name ++ ") contains a non-ASCII character '" ++
      String.mk [c] ++ "' at position (" ++ toString pos ++ ")")
  | none =>
    if 36 < stringLengthWithNull then
      some ("[Name] is too long, GPT header can hold only 72 bytes of UTF-16 " ++
        "(35 normal characters + null) while (" ++ String.mk name ++ ") needs " ++
        toString (stringLengthWithNull * 2) ++ " bytes")
    else none

/-! ### RPM source classification (`getRpmSourceFileType` in
`rpmsourcesmounts.go`) -/

/-- Go's `path/filepath.Base`: empty path maps to `"."`; otherwise strip
trailing slashes and keep everything after the last slash, with the root
path mapping to `"/"`. -/
def goPathBase (p : String) : String :=
  if p.data.isEmpty then "."
  else
    let l := (p.data.reverse.dropWhile (fun c => c == '/')).reverse
    if l.isEmpty then "/"
    else String.mk (l.reverse.takeWhile (fun c => !(c == '/'))).reverse

/-- The extension as computed by `getRpmSourceFileType`: the substring of
the base name starting at the first `.`, or `""` when there is no dot. -/
def extFromFirstDot (filename : String) : String :=
  match filename.data.findIdx? (fun c => c == '.') with
  | some i => String.mk (filename.data.drop i)
  | none => ""

/-- Model of `getRpmSourceFileType` from `rpmsourcesmounts.go`: a directory is
`"dir"`; otherwise the base name's first-dot extension selects `"tar"`
(for `.tar` and `.tar.gz`) or `"conf"`, and anything else yields `""`
(reported upstream as an unknown RPM source type).  The file's content is
never read. -/
def getRpmSourceFileType (isDir : Bool) (rpmSourcePath : String) : String :=
  if isDir then "dir"
  else
    let fileExt := extFromFirstDot (goPathBase rpmSourcePath)
    if fileExt = ".tar" ∨ fileExt = ".tar.gz" then "tar"
    else if fileExt = ".conf" then "conf"
    else ""

/-- An RPM source descriptor as the claims see it: whether the path is a
directory, the path itself, and the file's bytes. -/
structure RpmSourceDesc where
  isDir : Bool
  path : String
  contents : List Nat
  deriving DecidableEq, Repr

/-- Whether the engine classifies and handles the source as an RPMs
tarball. -/
def classifiedAsTarball (d : RpmSourceDesc) : Bool :=
  getRpmSourceFileType d.isDir d.path == "tar"

/-- The criterion stated by the specification: the first two bytes of the
file are the gzip magic `1F 8B`. -/
def hasGzipMagic (d : RpmSourceDesc) : Bool :=
  d.contents.take 2 == [0x1f, 0x8b]

/-! ### Package installation (`updatePackagesHelper` in
`imagecustomizer.go`) -/

/-- Actions of the package-install step. -/
inductive PkgAction where
  | mkdirParent (dir : String)
  | mountSource (source : String)
  | tdnfInstall (pkg : String)
  | closeRpmSources
  deriving DecidableEq, Repr

/-- The chroot path under which RPM sources are mounted. -/
def rpmsMountParentDirInChroot : String := "/sourcerpms"

/-- Model of `collectPackagesList`: the packages read from the package-list files
followed by the inline packages. -/
def collectPackagesList (packageListsContents : List (List String)) (packages : List String) :
    List String :=
  packageListsContents.flatten ++ packages

/-- Model of `updatePackagesHelper` from `imagecustomizer.go`: with no packages it
does nothing; with packages but no RPM sources it fails before creating
the RPM mount directory; otherwise (success path modelled) it creates the
mount parent directory, mounts each source, installs the packages one at a
time, and closes the RPM-source mounts. -/
def updatePackagesHelper (packages : List String) (rpmsSources : List String) :
    Option String × List PkgAction :=
  if packages.length ≤ 0 then (none, [])
  else if rpmsSources.length ≤ 0 then
    (some ("have " ++ toString packages.length ++
      " packages to install but no RPM sources were specified"), [])
  else
    (none,
      PkgAction.mkdirParent rpmsMountParentDirInChroot ::
        (rpmsSources.map PkgAction.mountSource ++ packages.map PkgAction.tdnfInstall ++
          [PkgAction.closeRpmSources]))

/-! ### Customization orchestrator (`doCustomizations` and
`customizeImageHelper`)

The orchestrator is embedded as a trace semantics over an environment of
step outcomes: each external effect either succeeds or fails according to
the environment, and the run records which steps were attempted.  The
embedding follows the revision of `doCustomizations` that overrides
`/etc/resolv.conf` first and deletes the override after the
finalize-image scripts, with no `defer` for the deletion; the RPM-source
mounts are closed by a `defer` inside `updatePackagesHelper`, and the
chroot and loopback device are closed by `defer`s in
`customizeImageHelper`. -/

/-- Outcomes of the orchestrated steps. -/
structure OrchEnv where
  hasPackages : Bool
  hasRpmSources : Bool
  mountRpmOk : Bool
  installOk : Bool
  overrideOk : Bool
  hostnameOk : Bool
  copyFilesOk : Bool
  postScriptsOk : Bool
  kernelOk : Bool
  finalizeOk : Bool
  deleteResolvOk : Bool
  deriving DecidableEq, Repr

/-- The steps an orchestrator run can attempt. -/
inductive OrchStep where
  | overrideResolvConf
  | mountRpmSources
  | installPackages
  | closeRpmSources
  | updateHostname
  | copyAdditionalFiles
  | runPostScripts
  | kernelCmdLine
  | runFinalizeScripts
  | deleteResolvConf
  | closeChroot
  | detachLoopback
  deriving DecidableEq, Repr

/-- The package-update step: nothing to do without packages; an error
before any mutation when packages exist but no RPM sources were given;
otherwise mount, install, and close — the close runs via `defer` even when
mounting or installing fails. -/
def updatePackagesRun (env : OrchEnv) : Option String × List OrchStep :=
  if !env.hasPackages then (none, [])
  else if !env.hasRpmSources then
    (some "have packages to install but no RPM sources were specified", [])
  else if !env.mountRpmOk then
    (some "failed to mount RPM sources", [OrchStep.mountRpmSources, OrchStep.closeRpmSources])
  else if !env.installOk then
    (some "failed to install package",
      [OrchStep.mountRpmSources, OrchStep.installPackages, OrchStep.closeRpmSources])
  else
    (none, [OrchStep.mountRpmSources, OrchStep.installPackages, OrchStep.closeRpmSources])

/-- Model of `doCustomizations`: the strict step sequence, each step returning its
error immediately.  The deletion of the overridden resolv.conf is the last
step and is not protected by a `defer`. -/
def doCustomizationsRun (env : OrchEnv) : Option String × List OrchStep :=
  let t1 : List OrchStep := [OrchStep.overrideResolvConf]
  if !env.overrideOk then (some "failed to override resolv.conf", t1)
  else
    let p := updatePackagesRun env
    let t2 := t1 ++ p.2
    match p.1 with
    | some e => (some e, t2)
    | none =>
      let t3 := t2 ++ [OrchStep.updateHostname]
      if !env.hostnameOk then (some "failed to write hostname file", t3)
      else
        let t4 := t3 ++ [OrchStep.copyAdditionalFiles]
        if !env.copyFilesOk then (some "failed to copy additional files", t4)
        else
          let t5 := t4 ++ [OrchStep.runPostScripts]
          if !env.postScriptsOk then (some "post-install script failed", t5)
          else
            let t6 := t5 ++ [OrchStep.kernelCmdLine]
            if !env.kernelOk then (some "failed to add extra kernel command line", t6)
            else
              let t7 := t6 ++ [OrchStep.runFinalizeScripts]
              if !env.finalizeOk then (some "finalize-image script failed", t7)
              else
                let t8 := t7 ++ [OrchStep.deleteResolvConf]
                if !env.deleteResolvOk then
                  (some "failed to delete overridden resolv.conf file", t8)
                else (none, t8)

/-- Model of `customizeImageHelper`: run `doCustomizations` and, via `defer`s,
always close the chroot and detach the loopback device afterwards. -/
def customizeImageHelperRun (env : OrchEnv) : Option String × List OrchStep :=
  let r := doCustomizationsRun env
  (r.1, r.2 ++ [OrchStep.closeChroot, OrchStep.detachLoopback])

/-! ### Example inputs used by witnesses and counterexamples -/

/-- A two-mount RPM-sources aggregate as produced by
`mountRpmSourcesHelper` for two source directories. -/
def rpmCloseExample : RpmSourcesMounts :=
  { rpmsMountParentDir := "/_localrpms"
    rpmsMountParentDirCreated := true
    mounts :=
      [{ target := "/_localrpms/00repoa", isMounted := true, dirCreated := true },
       { target := "/_localrpms/01repob", isMounted := true, dirCreated := true }]
    allReposConfigFilePath := "/_localrpms/allrepos.repo" }

/-- An orchestrator environment in which the additional-file copy step
(between the resolv.conf override and the finalize scripts) fails. -/
def orchFailEnv : OrchEnv :=
  { hasPackages := true, hasRpmSources := true, mountRpmOk := true, installOk := true
    overrideOk := true, hostnameOk := true, copyFilesOk := false, postScriptsOk := true
    kernelOk := true, finalizeOk := true, deleteResolvOk := true }

/-- The all-success orchestrator environment. -/
def orchOkEnv : OrchEnv :=
  { hasPackages := true, hasRpmSources := true, mountRpmOk := true, installOk := true
    overrideOk := true, hostnameOk := true, copyFilesOk := true, postScriptsOk := true
    kernelOk := true, finalizeOk := true, deleteResolvOk := true }

/-- A grub.cfg content containing one kernel line. -/
def grubExample : List Char :=
  "menuentry \x7b\n\tlinux /boot/vmlinuz ro $kernelopts\n\x7d\n".data

/-- A partition table that has a legacy BIOS-boot partition and a rootfs
partition but no EFI system partition. -/
def biosOnlyParts : List PartitionInfo :=
  [{ path := "/dev/loop0p1", partitionTypeUuid := biosGrubTypeUuid
     uuid := "1234-abcd", fileSystemType := "fat32" },
   { path := "/dev/loop0p2", partitionTypeUuid := "0fc63daf-8483-4772-8e79-3d69d8477de4"
     uuid := "abcd-ef01", fileSystemType := "ext4" }]

/-- The overlay of the specification's overlay-declaration scenario. -/
def overlayExample : Overlay :=
  { lower := "/usr", upper := "/overlays/usr/upper", work := "/overlays/usr/work"
    target := "/usr", options := "x-initrd.mount" }

/-! ## Theorems -/

/-! ### Shared helper lemmas -/

theorem isPrefixOfIff {l₁ l₂ : List Char} :
    l₁.isPrefixOf l₂ = true ↔ l₁ <+: l₂ := List.isPrefixOf_iff_prefix

theorem applyFs_append (dirs : List String) (l1 l2 : List FsAction) :
    applyFs dirs (l1 ++ l2) = applyFs (applyFs dirs l1) l2 := by
  induction l1 generalizing dirs with
  | nil => rfl
  | cons a rest ih =>
    cases a <;> simp [applyFs, ih]

theorem unmountTargets_append (l1 l2 : List FsAction) :
    unmountTargets (l1 ++ l2) = unmountTargets l1 ++ unmountTargets l2 := by
  simp [unmountTargets]

theorem unmountTargets_mount_close (ms : List Mount) :
    unmountTargets ((ms.map (fun mt => (mt.close true true).2.1)).flatten) =
      (ms.filter (fun mt => mt.isMounted)).map (fun mt => mt.target) := by
  induction ms with
  | nil => rfl
  | cons m rest ih =>
    have hstep : (List.map (fun mt => (mt.close true true).2.1) (m :: rest)).flatten =
        (m.close true true).2.1 ++ (List.map (fun mt => (mt.close true true).2.1) rest).flatten := by
      simp
    rw [hstep, unmountTargets_append, ih]
    rcases m with ⟨t, im, dc⟩
    cases im <;> cases dc <;> simp [Mount.close, unmountTargets]

/-- C5: a scoped mount handle's `Close` is idempotent — after one
successful `Close` a further call attempts no unmount and no directory
removal and returns success — and `Close` is safe after a failed
construction, in which case the `NewMount` cleanup only removes the
directory the handle created. -/
theorem mount_close_idempotent (m : Mount) (unmountOk removeOk : Bool) (m' : Mount)
    (tr : List FsAction) (h : m.close unmountOk removeOk = (m', tr, none)) :
    (∀ unmountOk' removeOk' : Bool, m'.close unmountOk' removeOk' = (m', [], none)) ∧
    (∀ source target : String, ∀ rOk : Bool,
      newMount source target true true false rOk =
        (none,
          [FsAction.mkdirAll target, FsAction.mountFs source target, FsAction.removeDir target],
          some ("failed to mount (" ++ source ++ ") to (" ++ target ++ ")"))) := by
  refine ⟨?_, ?_⟩
  · intro u' r'
    rcases m with ⟨t, im, dc⟩
    cases im <;> cases dc <;> cases unmountOk <;> cases removeOk <;>
        simp [Mount.close, Prod.mk.injEq] at h <;>
      obtain ⟨h1, h2⟩ := h <;>
      subst h1 <;>
      simp [Mount.close]
  · intro source target rOk
    cases rOk <;> rfl

/-- C5 witness: a concrete successful close followed by a second close
that does nothing and succeeds. -/
theorem mount_close_idempotent_witness :
    Mount.close { target := "/boot/efi", isMounted := false, dirCreated := false } true true =
      ({ target := "/boot/efi", isMounted := false, dirCreated := false }, [], none) :=
  ((mount_close_idempotent
      { target := "/boot/efi", isMounted := true, dirCreated := true } true true
      { target := "/boot/efi", isMounted := false, dirCreated := false }
      [FsAction.unmountFs "/boot/efi", FsAction.removeDir "/boot/efi"]
      (by decide)).1) true true

/-- C4 counterexample: for an aggregate with two mounts acquired in order
`00repoa, 01repob`, `close` unmounts them in acquisition order, not in
reverse acquisition order as the claim states. -/
theorem rpm_sources_close_forward_order :
    unmountTargets (rpmSourcesClose rpmCloseExample).2 =
      ["/_localrpms/00repoa", "/_localrpms/01repob"] ∧
    unmountTargets (rpmSourcesClose rpmCloseExample).2 ≠
      (rpmCloseExample.mounts.map (fun mt => mt.target)).reverse := by
  decide

/-- C4 (amended): `rpmSourcesMounts.close` first deletes the aggregated
`allrepos.repo` file, then closes the mount handles in acquisition
(forward) order, then removes the parent directory with a non-recursive
remove as its last action, after which the parent directory no longer
exists. -/
theorem rpm_sources_close_spec (m : RpmSourcesMounts) (w : List String)
    (hc : m.rpmsMountParentDirCreated = true) :
    (rpmSourcesClose m).2.head? = some (FsAction.removeFileAll m.allReposConfigFilePath) ∧
    unmountTargets (rpmSourcesClose m).2 =
      (m.mounts.filter (fun mt => mt.isMounted)).map (fun mt => mt.target) ∧
    (rpmSourcesClose m).2.getLast? = some (FsAction.removeDir m.rpmsMountParentDir) ∧
    (rpmSourcesClose m).1.rpmsMountParentDirCreated = false ∧
    m.rpmsMountParentDir ∉ applyFs w (rpmSourcesClose m).2 := by
  have htr : (rpmSourcesClose m).2 =
      FsAction.removeFileAll m.allReposConfigFilePath ::
        ((m.mounts.map (fun mt => (mt.close true true).2.1)).flatten ++
          [FsAction.removeDir m.rpmsMountParentDir]) := by
    simp only [rpmSourcesClose, hc, if_true]
    rw [List.map_map]
    rfl
  have hst : (rpmSourcesClose m).1.rpmsMountParentDirCreated = false := by
    simp [rpmSourcesClose, hc]
  refine ⟨?_, ?_, ?_, hst, ?_⟩
  · rw [htr]; rfl
  · rw [htr]
    have : unmountTargets
        (FsAction.removeFileAll m.allReposConfigFilePath ::
          ((m.mounts.map (fun mt => (mt.close true true).2.1)).flatten ++
            [FsAction.removeDir m.rpmsMountParentDir])) =
        unmountTargets ((m.mounts.map (fun mt => (mt.close true true).2.1)).flatten) := by
      simp [unmountTargets]
    rw [this, unmountTargets_mount_close]
  · rw [htr]
    rw [show (FsAction.removeFileAll m.allReposConfigFilePath ::
        ((m.mounts.map (fun mt => (mt.close true true).2.1)).flatten ++
          [FsAction.removeDir m.rpmsMountParentDir])) =
        (FsAction.removeFileAll m.allReposConfigFilePath ::
          (m.mounts.map (fun mt => (mt.close true true).2.1)).flatten) ++
          [FsAction.removeDir m.rpmsMountParentDir] from by simp]
    exact List.getLast?_concat _
  · rw [htr]
    rw [show (FsAction.removeFileAll m.allReposConfigFilePath ::
        ((m.mounts.map (fun mt => (mt.close true true).2.1)).flatten ++
          [FsAction.removeDir m.rpmsMountParentDir])) =
        (FsAction.removeFileAll m.allReposConfigFilePath ::
          (m.mounts.map (fun mt => (mt.close true true).2.1)).flatten) ++
          [FsAction.removeDir m.rpmsMountParentDir] from by simp]
    rw [applyFs_append]
    intro hmem
    have : m.rpmsMountParentDir ∈
        (applyFs w (FsAction.removeFileAll m.allReposConfigFilePath ::
          (m.mounts.map (fun mt => (mt.close true true).2.1)).flatten)).filter
          (fun d => !(d == m.rpmsMountParentDir)) := by
      simp [applyFs] at hmem
    have h2 := List.of_mem_filter this
    simp at h2

/-- C4 witness: the amended close behaviour evaluated on the concrete
two-mount aggregate. -/
theorem rpm_sources_close_spec_witness :
    (rpmSourcesClose rpmCloseExample).2.head? =
      some (FsAction.removeFileAll rpmCloseExample.allReposConfigFilePath) ∧
    unmountTargets (rpmSourcesClose rpmCloseExample).2 =
      (rpmCloseExample.mounts.filter (fun mt => mt.isMounted)).map (fun mt => mt.target) ∧
    (rpmSourcesClose rpmCloseExample).2.getLast? =
      some (FsAction.removeDir rpmCloseExample.rpmsMountParentDir) ∧
    (rpmSourcesClose rpmCloseExample).1.rpmsMountParentDirCreated = false ∧
    rpmCloseExample.rpmsMountParentDir ∉ applyFs ["/_localrpms"] (rpmSourcesClose rpmCloseExample).2 :=
  rpm_sources_close_spec rpmCloseExample ["/_localrpms"] (by decide)

/-- C1 counterexample: when the additional-file copy step (between the
resolv.conf override, step 5, and the finalize scripts, step 13) fails,
the run fails, the chroot close and loopback detach (step 15 teardown) and
the RPM-sources close are still attempted, but the deletion of the
overridden resolv.conf (step 14) is not attempted. -/
theorem orchestrator_cleanup_counterexample :
    (customizeImageHelperRun orchFailEnv).1.isSome = true ∧
    OrchStep.overrideResolvConf ∈ (customizeImageHelperRun orchFailEnv).2 ∧
    OrchStep.runFinalizeScripts ∉ (customizeImageHelperRun orchFailEnv).2 ∧
    OrchStep.deleteResolvConf ∉ (customizeImageHelperRun orchFailEnv).2 ∧
    OrchStep.closeRpmSources ∈ (customizeImageHelperRun orchFailEnv).2 ∧
    OrchStep.closeChroot ∈ (customizeImageHelperRun orchFailEnv).2 ∧
    OrchStep.detachLoopback ∈ (customizeImageHelperRun orchFailEnv).2 := by
  decide

/-- C1 (amended): in every run the chroot close and loopback detach are
attempted (they are deferred), the RPM-sources handle is closed whenever
it was opened (its close is deferred inside the package step), but the
overridden resolv.conf is deleted exactly when every customization step up
to and including the finalize scripts succeeded — a failure between steps
5 and 13 skips the resolv.conf deletion. -/
theorem orchestrator_cleanup_spec (env : OrchEnv) :
    OrchStep.closeChroot ∈ (customizeImageHelperRun env).2 ∧
    OrchStep.detachLoopback ∈ (customizeImageHelperRun env).2 ∧
    (OrchStep.mountRpmSources ∈ (customizeImageHelperRun env).2 →
      OrchStep.closeRpmSources ∈ (customizeImageHelperRun env).2) ∧
    (OrchStep.deleteResolvConf ∈ (customizeImageHelperRun env).2 ↔
      (env.overrideOk = true ∧
        (env.hasPackages = true →
          env.hasRpmSources = true ∧ env.mountRpmOk = true ∧ env.installOk = true) ∧
        env.hostnameOk = true ∧ env.copyFilesOk = true ∧ env.postScriptsOk = true ∧
        env.kernelOk = true ∧ env.finalizeOk = true)) := by
  obtain ⟨a, b, c, d, e, f, g, h, i, j, k⟩ := env
  revert a b c d e f g h i j k
  decide

/-- C1 witness: in the all-success run every cleanup step, including the
resolv.conf deletion, appears in the trace. -/
theorem orchestrator_cleanup_spec_witness :
    OrchStep.closeChroot ∈ (customizeImageHelperRun orchOkEnv).2 ∧
    OrchStep.detachLoopback ∈ (customizeImageHelperRun orchOkEnv).2 ∧
    (OrchStep.mountRpmSources ∈ (customizeImageHelperRun orchOkEnv).2 →
      OrchStep.closeRpmSources ∈ (customizeImageHelperRun orchOkEnv).2) ∧
    (OrchStep.deleteResolvConf ∈ (customizeImageHelperRun orchOkEnv).2 ↔
      (orchOkEnv.overrideOk = true ∧
        (orchOkEnv.hasPackages = true →
          orchOkEnv.hasRpmSources = true ∧ orchOkEnv.mountRpmOk = true ∧
            orchOkEnv.installOk = true) ∧
        orchOkEnv.hostnameOk = true ∧ orchOkEnv.copyFilesOk = true ∧
        orchOkEnv.postScriptsOk = true ∧ orchOkEnv.kernelOk = true ∧
        orchOkEnv.finalizeOk = true)) :=
  orchestrator_cleanup_spec orchOkEnv

theorem handleOverlaysLoop_spec (overlays : List Overlay) (fstabEntries : List FstabEntry) :
    handleOverlaysLoop overlays fstabEntries =
      (fstabEntries ++ overlays.map overlayFstabEntry,
        overlays.flatMap (fun o =>
          [ChrootAction.mkdirChroot o.upper 0o755, ChrootAction.mkdirChroot o.work 0o755])) := by
  induction overlays generalizing fstabEntries with
  | nil => simp [handleOverlaysLoop]
  | cons o rest ih => simp [handleOverlaysLoop, ih]

/-- C8: `handleOverlays` on an empty overlay list returns `false` and
changes nothing; on a non-empty list it returns `true`, appends one fstab
entry per overlay in order while keeping every pre-existing entry, and
creates the upper and work directories with mode `0o755` inside the
chroot; each appended entry has source `overlay`, fsType `overlay`, freq
`0`, passno `2`, and options equal to the overlay's options followed by a
comma when non-empty and then the `lowerdir`/`upperdir`/`workdir`
triple. -/
theorem handle_overlays_spec (overlays : List Overlay) (fstabEntries : List FstabEntry) :
    (overlays = [] → handleOverlays overlays fstabEntries = (false, fstabEntries, [])) ∧
    (overlays ≠ [] →
      handleOverlays overlays fstabEntries =
        (true, fstabEntries ++ overlays.map overlayFstabEntry,
          ChrootAction.addDracutModule "overlay" ::
            overlays.flatMap (fun o =>
              [ChrootAction.mkdirChroot o.upper 0o755,
               ChrootAction.mkdirChroot o.work 0o755]))) ∧
    (∀ o : Overlay,
      (overlayFstabEntry o).source = "overlay" ∧
      (overlayFstabEntry o).fsType = "overlay" ∧
      (overlayFstabEntry o).freq = 0 ∧
      (overlayFstabEntry o).passNo = 2 ∧
      (overlayFstabEntry o).options =
        (if o.options = "" then "" else o.options ++ ",") ++
          ("lowerdir=" ++ o.lower ++ ",upperdir=" ++ o.upper ++ ",workdir=" ++ o.work)) := by
  refine ⟨?_, ?_, ?_⟩
  · intro h
    subst h
    rfl
  · intro h
    have hlen : ¬ overlays.length ≤ 0 := by
      cases overlays with
      | nil => exact absurd rfl h
      | cons o rest => simp
    simp [handleOverlays, hlen, handleOverlaysLoop_spec]
  · intro o
    refine ⟨rfl, rfl, rfl, rfl, ?_⟩
    by_cases h : o.options = "" <;> simp [overlayFstabEntry, h]

/-- C8 witness: the overlay scenario of the specification evaluated
concretely. -/
theorem handle_overlays_spec_witness :
    handleOverlays [overlayExample] [] =
      (true, [] ++ [overlayExample].map overlayFstabEntry,
        ChrootAction.addDracutModule "overlay" ::
          [overlayExample].flatMap (fun o =>
            [ChrootAction.mkdirChroot o.upper 0o755,
             ChrootAction.mkdirChroot o.work 0o755])) :=
  (handle_overlays_spec [overlayExample] []).2.1 (by simp)

/-- C10: if the combined package list (package-list files plus inline
packages) is empty, the package-install step succeeds without any RPM
sources and performs no actions; if it is non-empty and the RPM-sources
list is empty, the step fails having performed no actions — in particular
without creating the RPM mount parent directory. -/
theorem update_packages_guards (packageListsContents : List (List String))
    (packages rpmsSources : List String) :
    (collectPackagesList packageListsContents packages = [] →
      updatePackagesHelper (collectPackagesList packageListsContents packages) rpmsSources =
        (none, [])) ∧
    (collectPackagesList packageListsContents packages ≠ [] →
      (updatePackagesHelper (collectPackagesList packageListsContents packages) []).1.isSome =
        true ∧
      (updatePackagesHelper (collectPackagesList packageListsContents packages) []).2 = []) := by
  constructor
  · intro h
    rw [h]
    rfl
  · intro h
    have hlen : ¬ (collectPackagesList packageListsContents packages).length ≤ 0 := by
      simp [List.length_eq_zero]
      exact h
    simp [updatePackagesHelper, hlen]

/-- C10 witness: one package collected from a package-list file and one
inline package, with no RPM sources: the step fails with an empty action
trace. -/
theorem update_packages_guards_witness :
    (updatePackagesHelper (collectPackagesList [["vim"]] ["curl"]) []).1.isSome = true ∧
    (updatePackagesHelper (collectPackagesList [["vim"]] ["curl"]) []).2 = [] :=
  (update_packages_guards [["vim"]] ["curl"] []).2 (by decide)

/-- C6 counterexample: classification as an RPMs tarball is not equivalent
to the file starting with the gzip magic bytes `1F 8B` — a non-directory
named `a.tar` whose first two bytes are `00 00` is still classified and
handled as an RPMs tarball. -/
theorem rpm_source_tarball_counterexample :
    ¬ (∀ d : RpmSourceDesc, d.isDir = false →
        (classifiedAsTarball d = true ↔ hasGzipMagic d = true)) := by
  intro h
  have h2 := (h { isDir := false, path := "a.tar", contents := [0, 0] } rfl).mp (by decide)
  exact absurd h2 (by decide)

/-- C6 (amended): a non-directory RPM source descriptor is classified and
handled as an RPMs tarball exactly when the extension of its base name
starting at the first dot is `.tar` or `.tar.gz`; the file's content bytes
are never inspected by the classification. -/
theorem rpm_source_tarball_spec (d : RpmSourceDesc) (hd : d.isDir = false) :
    (classifiedAsTarball d = true ↔
      (extFromFirstDot (goPathBase d.path) = ".tar" ∨
        extFromFirstDot (goPathBase d.path) = ".tar.gz")) ∧
    (∀ bytes : List Nat,
      classifiedAsTarball { d with contents := bytes } = classifiedAsTarball d) := by
  constructor
  · unfold classifiedAsTarball getRpmSourceFileType
    rw [hd]
    by_cases h : extFromFirstDot (goPathBase d.path) = ".tar" ∨
        extFromFirstDot (goPathBase d.path) = ".tar.gz"
    · simp [h]
    · rw [if_neg h]
      by_cases h2 : extFromFirstDot (goPathBase d.path) = ".conf" <;> simp [h2, h]
  · intro bytes
    rfl

/-- C6 witness: a gzipped RPMs tarball name evaluated concretely. -/
theorem rpm_source_tarball_spec_witness :
    (classifiedAsTarball { isDir := false, path := "/rpms/foo.tar.gz", contents := [1, 2] } = true ↔
      (extFromFirstDot (goPathBase "/rpms/foo.tar.gz") = ".tar" ∨
        extFromFirstDot (goPathBase "/rpms/foo.tar.gz") = ".tar.gz")) ∧
    (∀ bytes : List Nat,
      classifiedAsTarball
          { isDir := false, path := "/rpms/foo.tar.gz", contents := bytes } =
        classifiedAsTarball { isDir := false, path := "/rpms/foo.tar.gz", contents := [1, 2] }) :=
  rpm_source_tarball_spec { isDir := false, path := "/rpms/foo.tar.gz", contents := [1, 2] } rfl

/-- C7 counterexample: on a disk whose partitions include a legacy
BIOS-boot partition but no EFI system partition, `findPartitions` fails
with the EFI-system-partition error instead of falling back to the
BIOS-boot partition. -/
theorem esp_fallback_counterexample :
    (biosOnlyParts.any (fun p => p.partitionTypeUuid == biosGrubTypeUuid)) = true ∧
    (biosOnlyParts.all (fun p => !(p.partitionTypeUuid == efiSystemPartitionTypeUuid))) = true ∧
    findPartitions biosOnlyParts "search -n -u abcd-ef01 -s\n" =
      Except.error "failed to find EFI system partition" := by
  refine ⟨by decide, by decide, ?_⟩
  rfl

/-- C7 (amended): the engine locates the EFI system partition by the type
UUID `c12a7328-f81f-11d2-ba4b-00a0c93ec93b`, and when no partition has
that type UUID it returns an error — there is no fallback. -/
theorem esp_no_fallback_spec (diskPartitions : List PartitionInfo) (grubCfg : String)
    (h : ∀ p ∈ diskPartitions, p.partitionTypeUuid ≠ efiSystemPartitionTypeUuid) :
    findPartitions diskPartitions grubCfg = Except.error "failed to find EFI system partition" := by
  have hnone :
      diskPartitions.find? (fun p => p.partitionTypeUuid == efiSystemPartitionTypeUuid) = none := by
    rw [List.find?_eq_none]
    intro p hp
    simpa using h p hp
  simp [findPartitions, hnone]

/-- C7 witness: the amended behaviour on the BIOS-boot-only partition
table. -/
theorem esp_no_fallback_spec_witness :
    findPartitions biosOnlyParts "search -n -u abcd-ef01 -s\n" =
      Except.error "failed to find EFI system partition" :=
  esp_no_fallback_spec biosOnlyParts "search -n -u abcd-ef01 -s\n" (by decide)

theorem seqIn_nil_pat (l : List Char) : seqIn [] l = true := by
  induction l with
  | nil => rfl
  | cons c tl ih => simp [seqIn, ih, List.isPrefixOf]

theorem seqIn_of_isPrefixOf {pat l : List Char} (h : pat.isPrefixOf l = true) :
    seqIn pat l = true := by
  cases l with
  | nil =>
    have : pat = [] := by
      cases pat with
      | nil => rfl
      | cons c tl => simp [List.isPrefixOf] at h
    subst this
    rfl
  | cons c tl => simp [seqIn, h]

theorem seqIn_append_left {pat a : List Char} (b : List Char) (h : seqIn pat a = true) :
    seqIn pat (a ++ b) = true := by
  induction a with
  | nil =>
    have : pat = [] := by
      cases pat with
      | nil => rfl
      | cons c tl => simp [seqIn, List.isPrefixOf] at h
    subst this
    exact seqIn_nil_pat b
  | cons c tl ih =>
    rw [seqIn] at h
    rcases Bool.or_eq_true_iff.mp h with h1 | h2
    · have hp : pat <+: (c :: tl) := isPrefixOfIff.mp h1
      have hp2 : pat <+: (c :: tl) ++ b := hp.trans (List.prefix_append _ _)
      have : pat.isPrefixOf ((c :: tl) ++ b) = true := isPrefixOfIff.mpr hp2
      exact seqIn_of_isPrefixOf this
    · rw [List.cons_append, seqIn, ih h2, Bool.or_true]

theorem seqIn_append_right {pat b : List Char} (a : List Char) (h : seqIn pat b = true) :
    seqIn pat (a ++ b) = true := by
  induction a with
  | nil => simpa using h
  | cons c tl ih => rw [List.cons_append, seqIn, ih, Bool.or_true]

theorem findNonAscii_eq_none {name : List Char} (h : ∀ c ∈ name, c.toNat ≤ 127) :
    ∀ pos, findNonAscii name pos = none := by
  induction name with
  | nil => intro pos; rfl
  | cons c tl ih =>
    intro pos
    have hc : ¬ maxAsciiVal < c.toNat := by
      have := h c (by simp)
      simp [maxAsciiVal]
      omega
    rw [findNonAscii, if_neg hc]
    exact ih (fun x hx => h x (by simp [hx])) _

theorem findNonAscii_of_exists {name : List Char} (h : ∃ c ∈ name, 127 < c.toNat) :
    ∀ pos, ∃ pr, findNonAscii name pos = some pr := by
  induction name with
  | nil => obtain ⟨c, hc, -⟩ := h; simp at hc
  | cons c tl ih =>
    intro pos
    by_cases hc : maxAsciiVal < c.toNat
    · exact ⟨(c, pos), by rw [findNonAscii, if_pos hc]⟩
    · have htl : ∃ x ∈ tl, 127 < x.toNat := by
        obtain ⟨x, hx, hgt⟩ := h
        rcases List.mem_cons.mp hx with rfl | hx'
        · exact absurd (by simpa [maxAsciiVal] using hgt) hc
        · exact ⟨x, hx', hgt⟩
      obtain ⟨pr, hpr⟩ := ih htl (pos + c.utf8Size)
      exact ⟨pr, by rw [findNonAscii, if_neg hc]; exact hpr⟩

theorem utf16Len_ascii {name : List Char} (h : ∀ c ∈ name, c.toNat ≤ 127) :
    utf16Len name = name.length := by
  induction name with
  | nil => rfl
  | cons c tl ih =>
    have hc : utf16UnitLen c = 1 := by
      have := h c (by simp)
      simp [utf16UnitLen]
      omega
    have htl := ih (fun x hx => h x (by simp [hx]))
    rw [utf16Len, List.map_cons, List.sum_cons, hc, List.length_cons]
    rw [utf16Len] at htl
    omega

/-- C9: partition name validation accepts a 35-character ASCII name,
rejects a 36-character ASCII name with a message containing `too long`,
and rejects any name containing a non-ASCII character with a message
containing `ASCII`. -/
theorem partition_name_check (name : List Char) :
    (name.length = 35 → (∀ c ∈ name, c.toNat ≤ 127) → nameCheck name = none) ∧
    (name.length = 36 → (∀ c ∈ name, c.toNat ≤ 127) →
      ∃ msg, nameCheck name = some msg ∧ seqIn "too long".data msg.data = true) ∧
    ((∃ c ∈ name, 127 < c.toNat) →
      ∃ msg, nameCheck name = some msg ∧ seqIn "ASCII".data msg.data = true) := by
  refine ⟨?_, ?_, ?_⟩
  · intro hlen hascii
    rw [nameCheck, findNonAscii_eq_none hascii 0]
    rw [if_neg (by rw [utf16Len_ascii hascii, hlen]; omega)]
  · intro hlen hascii
    rw [nameCheck, findNonAscii_eq_none hascii 0]
    rw [if_pos (by rw [utf16Len_ascii hascii, hlen]; omega)]
    refine ⟨_, rfl, ?_⟩
    rw [String.data_append, String.data_append, String.data_append, String.data_append,
      String.data_append]
    apply seqIn_append_left
    apply seqIn_append_left
    apply seqIn_append_left
    apply seqIn_append_left
    apply seqIn_append_left
    decide
  · intro hex
    obtain ⟨⟨c0, pos0⟩, hpr⟩ := findNonAscii_of_exists hex 0
    rw [nameCheck, hpr]
    refine ⟨_, rfl, ?_⟩
    rw [String.data_append, String.data_append, String.data_append, String.data_append,
      String.data_append]
    apply seqIn_append_left
    apply seqIn_append_left
    apply seqIn_append_left
    apply seqIn_append_left
    apply seqIn_append_right
    decide

/-- C9 witness: the three boundary behaviours evaluated at a 35-`a` name,
a 36-`a` name, and `héllo`. -/
theorem partition_name_check_witness :
    nameCheck (List.replicate 35 'a') = none ∧
    (∃ msg, nameCheck (List.replicate 36 'a') = some msg ∧
      seqIn "too long".data msg.data = true) ∧
    (∃ msg, nameCheck "héllo".data = some msg ∧ seqIn "ASCII".data msg.data = true) :=
  ⟨(partition_name_check (List.replicate 35 'a')).1 (by decide) (by decide),
   (partition_name_check (List.replicate 36 'a')).2.1 (by decide) (by decide),
   (partition_name_check "héllo".data).2.2 ⟨'é', by decide⟩⟩

theorem greedyK_spec {l : List Char} {k : Nat} (h : greedyK l = some k) :
    kernelLineCand l k = true :=
  List.find?_some h

theorem matchAt_spec {rem : List Char} {j : Nat} (h : matchAt rem = some j) :
    kernelOptsTok <+: rem.drop j := by
  rw [matchAt] at h
  by_cases hp : linuxPat.isPrefixOf rem = true
  · rw [if_pos hp] at h
    cases hg : greedyK (rem.drop 7) with
    | none => rw [hg] at h; simp at h
    | some k =>
      rw [hg] at h
      simp at h
      subst h
      have hc := greedyK_spec hg
      rw [kernelLineCand] at hc
      have h2 := (Bool.and_eq_true _ _).mp hc |>.2
      have h3 : (' ' :: kernelOptsTok) <+: (rem.drop 7).drop k :=
        isPrefixOfIff.mp h2
      rw [List.drop_drop] at h3
      obtain ⟨t, ht⟩ := h3
      refine ⟨t, ?_⟩
      have hidx : rem.drop (7 + (k + 1)) = (rem.drop (7 + k)).drop 1 := by
        rw [List.drop_drop]
        rfl
      rw [hidx, ← ht]
      rfl
  · rw [if_neg hp] at h
    simp at h

theorem scanKernel_spec : ∀ {l : List Char} {i : Nat}, scanKernel l = some i →
    kernelOptsTok <+: l.drop i := by
  intro l
  induction l with
  | nil => intro i h; simp [scanKernel] at h
  | cons c tl ih =>
    intro i h
    rw [scanKernel] at h
    cases hm : matchAt (c :: tl) with
    | some j =>
      rw [hm] at h
      cases h
      exact matchAt_spec hm
    | none =>
      rw [hm] at h
      cases hs : scanKernel tl with
      | none => rw [hs] at h; simp at h
      | some i' =>
        rw [hs] at h
        simp at h
        subst h
        simpa using ih hs

theorem greedyK_none {l : List Char} (h : greedyK l = none) :
    ∀ k, kernelLineCand l k = false := by
  intro k
  by_cases hk : k < l.length + 1
  · have hmem : k ∈ (List.range (l.length + 1)).reverse := by
      simp [List.mem_reverse, List.mem_range]
      omega
    have := List.find?_eq_none.mp h k hmem
    simpa using this
  · rw [kernelLineCand]
    have hdrop : l.drop k = [] := List.drop_eq_nil_of_le (by omega)
    rw [hdrop]
    simp [List.isPrefixOf]

theorem matchAt_none {rem : List Char} (h : matchAt rem = none) (k : Nat) :
    ¬ (linuxPat <+: rem ∧ (∀ c ∈ (rem.drop 7).take k, c ≠ '\n') ∧
        (' ' :: kernelOptsTok) <+: (rem.drop 7).drop k) := by
  rintro ⟨h1, h2, h3⟩
  rw [matchAt, if_pos (isPrefixOfIff.mpr h1)] at h
  have hg : greedyK (rem.drop 7) = none := by
    cases hg2 : greedyK (rem.drop 7) with
    | none => rfl
    | some k2 => rw [hg2] at h; simp at h
  have hfalse := greedyK_none hg k
  rw [kernelLineCand] at hfalse
  have hall : ((rem.drop 7).take k).all (fun c => !(c == '\n')) = true := by
    rw [List.all_eq_true]
    intro c hc
    simpa using h2 c hc
  have hpre : (' ' :: kernelOptsTok).isPrefixOf ((rem.drop 7).drop k) = true :=
    isPrefixOfIff.mpr h3
  rw [hall, hpre] at hfalse
  simp at hfalse

theorem scanKernel_none : ∀ {l : List Char}, scanKernel l = none →
    ∀ s k, ¬ KernelMatchAt l s k := by
  intro l
  induction l with
  | nil =>
    rintro - s k ⟨h1, -, -⟩
    rw [List.drop_nil] at h1
    rw [List.prefix_nil] at h1
    simp [linuxPat] at h1
  | cons c tl ih =>
    intro h s k
    rw [scanKernel] at h
    cases hm : matchAt (c :: tl) with
    | some j => rw [hm] at h; simp at h
    | none =>
      rw [hm] at h
      have htl : scanKernel tl = none := by
        cases hs : scanKernel tl with
        | none => rfl
        | some i' => rw [hs] at h; simp at h
      cases s with
      | zero =>
        intro hmatch
        rw [KernelMatchAt] at hmatch
        refine matchAt_none hm k ?_
        simpa using hmatch
      | succ s' =>
        intro hmatch
        rw [KernelMatchAt] at hmatch
        refine ih htl s' k ?_
        rw [KernelMatchAt]
        have e1 : (c :: tl).drop (s' + 1) = tl.drop s' := rfl
        have e2 : (c :: tl).drop (s' + 1 + 7) = tl.drop (s' + 7) := by
          rw [show s' + 1 + 7 = (s' + 7) + 1 from by omega]
          rfl
        rw [e1, e2] at hmatch
        exact hmatch

theorem drop_append_len {α : Type} (a b : List α) (n : Nat) :
    (a ++ b).drop (a.length + n) = b.drop n := by
  induction a with
  | nil => simp
  | cons c tl ih =>
    rw [List.length_cons, List.cons_append,
      show tl.length + 1 + n = (tl.length + n) + 1 from by omega, List.drop_succ_cons]
    exact ih

/-- C2: whenever the kernel-line pattern matches with capture-group start
`i`, the rewriter outputs the content with `extraCommandLine ++ " "`
inserted at offset `i` — the first `i` characters and everything from
offset `i` onward are unchanged — the inserted text lands immediately
before the `$kernelopts` literal, and an empty `extraCommandLine` inserts
exactly one space there. -/
theorem kernel_line_insertion (grubCfg : List Char) (extra : String) (i : Nat)
    (h : matchLinuxLine grubCfg = some i) :
    handleKernelCommandLine extra grubCfg =
      Except.ok (grubCfg.take i ++ extra.data ++ ' ' :: grubCfg.drop i) ∧
    kernelOptsTok <+: grubCfg.drop i ∧
    (grubCfg.take i ++ extra.data ++ ' ' :: grubCfg.drop i).take i = grubCfg.take i ∧
    (grubCfg.take i ++ extra.data ++ ' ' :: grubCfg.drop i).drop
        ((grubCfg.take i).length + (extra.data.length + 1)) = grubCfg.drop i ∧
    handleKernelCommandLine "" grubCfg = Except.ok (grubCfg.take i ++ ' ' :: grubCfg.drop i) := by
  have htok : kernelOptsTok <+: grubCfg.drop i := scanKernel_spec h
  have hi : i ≤ grubCfg.length := by
    by_contra hgt
    have hnil : grubCfg.drop i = [] := List.drop_eq_nil_of_le (by omega)
    rw [hnil, List.prefix_nil] at htok
    simp [kernelOptsTok] at htok
  have hlen : (grubCfg.take i).length = i := by
    rw [List.length_take]
    omega
  refine ⟨?_, htok, ?_, ?_, ?_⟩
  · simp [handleKernelCommandLine, h]
  · nth_rewrite 1 [← hlen]
    rw [List.append_assoc]
    exact List.take_left _ _
  · rw [List.append_assoc, drop_append_len,
      drop_append_len extra.data (' ' :: grubCfg.drop i) 1]
    rfl
  · simp [handleKernelCommandLine, h]

/-- C2 witness: the insertion evaluated on a concrete grub.cfg with
capture-group start 36 and `extraCommandLine = "console=ttyS0"`. -/
theorem kernel_line_insertion_witness :
    handleKernelCommandLine "console=ttyS0" grubExample =
      Except.ok (grubExample.take 36 ++ "console=ttyS0".data ++ ' ' :: grubExample.drop 36) ∧
    kernelOptsTok <+: grubExample.drop 36 ∧
    (grubExample.take 36 ++ "console=ttyS0".data ++ ' ' :: grubExample.drop 36).take 36 =
      grubExample.take 36 ∧
    (grubExample.take 36 ++ "console=ttyS0".data ++ ' ' :: grubExample.drop 36).drop
        ((grubExample.take 36).length + ("console=ttyS0".data.length + 1)) =
      grubExample.drop 36 ∧
    handleKernelCommandLine "" grubExample =
      Except.ok (grubExample.take 36 ++ ' ' :: grubExample.drop 36) :=
  kernel_line_insertion grubExample "console=ttyS0" 36 (by decide)

/-- C3: when the grub.cfg content has no match for the kernel-line pattern
(in the declarative sense, at any position and any `.*` extent), the
rewriter returns an error and the file content is unchanged. -/
theorem kernel_line_no_match (grubCfg : List Char) (extra : String)
    (h : matchLinuxLine grubCfg = none) :
    handleKernelCommandLineFile extra grubCfg =
      (Except.error "failed to find Linux kernel command line params in grub2 config file",
        grubCfg) ∧
    ∀ s k, ¬ KernelMatchAt grubCfg s k := by
  constructor
  · simp [handleKernelCommandLineFile, h]
  · exact scanKernel_none h

/-- C3 witness: a grub.cfg fragment with no kernel line is rejected with
the content untouched. -/
theorem kernel_line_no_match_witness :
    handleKernelCommandLineFile "console=ttyS0" "set default=0\n".data =
      (Except.error "failed to find Linux kernel command line params in grub2 config file",
        "set default=0\n".data) :=
  (kernel_line_no_match "set default=0\n".data "console=ttyS0" (by decide)).1

end ImageCustomizer
